import Mathlib

/-!
Verification development for the CreativeFlow media-review tool.

This file shallowly embeds the Annotation & Viewport Coordinate Engine of the
repository in Lean 4:
  * the data model of `src/types.ts` (users, drawings, comments, versions);
  * the review-room state and its handlers from `src/views/ReviewRoom.tsx`
    (wheel zoom, zoom buttons, approve/request-changes, upload new version,
    add/resolve/move comments, the visible-comments filter);
  * the annotation pointer state machine from
    `src/components/Review/AnnotationLayer.tsx` (mouse down/move/up, the
    pen/box drafts, pin dragging, commit thresholds).

Numbers are modelled as rationals (exact real arithmetic); JavaScript numbers
are IEEE doubles, so algebraic identities hold here exactly where the source
holds them up to floating error.  Identifier/time inputs that the source reads
from `Date.now()` are passed in as parameters.
-/

namespace CreativeFlow

/-! ## Data model (src/types.ts) -/

/-- `UserRole` enum from src/types.ts. -/
inductive UserRole where
  | superAdmin
  | creator
  | approver
  | observer
deriving DecidableEq, Repr

/-- `AssetType` enum from src/types.ts. -/
inductive AssetType where
  | image
  | video
  | document
deriving DecidableEq, Repr

/-- `AssetStatus` enum from src/types.ts. -/
inductive AssetStatus where
  | pending
  | inProgress
  | changesRequested
  | approved
deriving DecidableEq, Repr

/-- `SocialRatio` enum from src/types.ts. -/
inductive SocialRatio where
  | original
  | tiktok916
  | insta11
  | portrait45
deriving DecidableEq, Repr

/-- `User` interface from src/types.ts. -/
structure User where
  id : String
  name : String
  role : UserRole
  avatar : String
deriving DecidableEq, Repr

/-- A normalized point `{x, y}` (percentage units in stored geometry). -/
structure Point where
  x : ℚ
  y : ℚ
deriving DecidableEq, Repr

/-- The rectangle `{x, y, w, h}` of a box drawing. -/
structure Rect where
  x : ℚ
  y : ℚ
  w : ℚ
  h : ℚ
deriving DecidableEq, Repr

/-- The `type` discriminator of `Drawing` (`'pen' | 'box'`). -/
inductive DrawType where
  | pen
  | box
deriving DecidableEq, Repr

/-- `Drawing` interface from src/types.ts: a discriminator plus optional
`points` (pen) and optional `rect` (box); `color` is always present. -/
structure Drawing where
  type : DrawType
  points : Option (List Point) := none
  rect : Option Rect := none
  color : String
deriving DecidableEq, Repr

/-- The non-recursive fields of the `Comment` interface from src/types.ts.
The optional `isInternal?: boolean` is modelled as a `Bool` (the source only
ever reads it in boolean position, where `undefined` behaves as `false`). -/
structure CommentData where
  id : String
  userId : String
  text : String
  timestamp : Nat
  resolved : Bool
  x : Option ℚ := none
  y : Option ℚ := none
  videoTimestamp : Option ℚ := none
  drawing : Option Drawing := none
  isInternal : Bool := false
deriving DecidableEq, Repr

/-- `Comment` from src/types.ts: its scalar fields plus the recursive
`replies?: Comment[]` list (modelled as always-present, default `[]`). -/
inductive Comment where
  | mk (data : CommentData) (replies : List Comment) : Comment

/-- The non-recursive fields of a comment. -/
def Comment.data : Comment → CommentData
  | .mk d _ => d

/-- The reply list of a comment. -/
def Comment.replies : Comment → List Comment
  | .mk _ r => r

@[simp] theorem Comment.data_mk (d : CommentData) (r : List Comment) :
    (Comment.mk d r).data = d := rfl

@[simp] theorem Comment.replies_mk (d : CommentData) (r : List Comment) :
    (Comment.mk d r).replies = r := rfl

/-- Field accessor `c.id`. -/
def Comment.id (c : Comment) : String := c.data.id

/-- Field accessor `c.resolved`. -/
def Comment.resolved (c : Comment) : Bool := c.data.resolved

/-- Field accessor `c.isInternal`. -/
def Comment.isInternal (c : Comment) : Bool := c.data.isInternal

/-- Field accessor `c.x`. -/
def Comment.x (c : Comment) : Option ℚ := c.data.x

/-- Field accessor `c.y`. -/
def Comment.y (c : Comment) : Option ℚ := c.data.y

/-- Field accessor `c.drawing`. -/
def Comment.drawing (c : Comment) : Option Drawing := c.data.drawing

/-- Rebuild a comment from updated scalar fields, keeping the replies
(the embedding of a TS spread `{ ...c, field: v }` on scalar fields). -/
def Comment.mapData (f : CommentData → CommentData) (c : Comment) : Comment :=
  .mk (f c.data) c.replies

/-- `AssetVersion` interface from src/types.ts. -/
structure AssetVersion where
  id : String
  versionNumber : Nat
  url : String
  createdAt : Nat
  comments : List Comment

/-- The drawing-tool selection of ReviewRoom/AnnotationLayer
(`'pointer' | 'pen' | 'box' | 'hand'`). -/
inductive Tool where
  | pointer
  | pen
  | box
  | hand
deriving DecidableEq, Repr

/-! ## ReviewRoom state (src/views/ReviewRoom.tsx)

The `useState`/`useRef` cells of the `ReviewRoom` component that the
embedded handlers read or write. -/

structure ReviewState where
  activeVersionId : String
  compareVersionId : Option String
  versions : List AssetVersion
  isUploadModalOpen : Bool
  currentAssetStatus : AssetStatus
  isCompareMode : Bool
  activeCommentId : Option String
  isVideoPlaying : Bool
  drawingTool : Tool
  zoom : ℚ
  pan : Point
  /-- `currentTimeRef.current`: last known video playback time. -/
  currentTime : ℚ

/-! ## Viewport transform (ReviewRoom.tsx, zoom & pan logic) -/

/-- `handleWheel` (ReviewRoom.tsx lines 162-185): zoom toward the mouse
pointer.  `rectLeft`/`rectTop` are the viewport bounding rectangle returned by
`getBoundingClientRect()`; the handler is a no-op in compare mode. -/
def handleWheel (deltaY clientX clientY rectLeft rectTop : ℚ)
    (s : ReviewState) : ReviewState :=
  if s.isCompareMode then s else
  let scaleAmount : ℚ := -deltaY * (2/1000)
  let newZoom : ℚ := min (max (1/10) (s.zoom * (1 + scaleAmount))) 5
  let mouseX : ℚ := clientX - rectLeft
  let mouseY : ℚ := clientY - rectTop
  let zoomRatio : ℚ := newZoom / s.zoom
  { s with
    zoom := newZoom
    pan := ⟨mouseX - (mouseX - s.pan.x) * zoomRatio,
            mouseY - (mouseY - s.pan.y) * zoomRatio⟩ }

/-- The "Zoom In" button (ReviewRoom.tsx line 742):
`setZoom(z => Math.min(5, z + 0.25))`. -/
def zoomInButton (s : ReviewState) : ReviewState :=
  { s with zoom := min 5 (s.zoom + 1/4) }

/-- The "Zoom Out" button (ReviewRoom.tsx line 750):
`setZoom(z => Math.max(0.1, z - 0.25))`. -/
def zoomOutButton (s : ReviewState) : ReviewState :=
  { s with zoom := max (1/10) (s.zoom - 1/4) }

/-- `handleResetZoom` (ReviewRoom.tsx lines 217-220). -/
def handleResetZoom (s : ReviewState) : ReviewState :=
  { s with zoom := 1, pan := ⟨0, 0⟩ }

/-- The rendering transform of the single-view canvas (ReviewRoom.tsx line
805): `translate(pan) scale(zoom)` with `transformOrigin: '0 0'`, mapping a
content-box point to viewport screen coordinates. -/
def toScreen (zoom : ℚ) (pan : Point) (c : Point) : Point :=
  ⟨pan.x + zoom * c.x, pan.y + zoom * c.y⟩

/-- Inverse of `toScreen`: the content-box point rendered under a given
screen position `m` (relative to the viewport's top-left) for a given
zoom/pan.  The normalized (percentage) coordinates of that content point are
this value divided by the fixed content-box size, so equality of
`contentPointUnder` values is equality of normalized content points. -/
def contentPointUnder (zoom : ℚ) (pan : Point) (m : Point) : Point :=
  ⟨(m.x - pan.x) / zoom, (m.y - pan.y) / zoom⟩

/-- The zoom operations of claim C6: wheel events with arbitrary deltas and
the ±0.25 zoom buttons. -/
inductive ViewportOp where
  | wheel (deltaY clientX clientY rectLeft rectTop : ℚ)
  | zoomInBtn
  | zoomOutBtn

/-- Apply one viewport operation to the review state. -/
def applyViewportOp (s : ReviewState) : ViewportOp → ReviewState
  | .wheel d cx cy rl rt => handleWheel d cx cy rl rt s
  | .zoomInBtn => zoomInButton s
  | .zoomOutBtn => zoomOutButton s

/-! ## Review-room comment/version operations (ReviewRoom.tsx) -/

/-- `activeVersion` (ReviewRoom.tsx line 29):
`versions.find(v => v.id === activeVersionId) || versions[0]`.
The source indexes `versions[0]` assuming a non-empty version list (the data
model guarantees `versions` non-empty); on an empty list this is `none` and
the operations below leave the state unchanged. -/
def activeVersion (s : ReviewState) : Option AssetVersion :=
  match s.versions.find? (fun v => v.id == s.activeVersionId) with
  | some v => some v
  | none => s.versions.head?

/-- `openTasksCount` (ReviewRoom.tsx line 70):
`activeVersion.comments.filter(c => !c.resolved).length`. -/
def openTasksCount (s : ReviewState) : Nat :=
  match activeVersion s with
  | some v => (v.comments.filter (fun c => !c.resolved)).length
  | none => 0

/-- `isDecisionMaker` (ReviewRoom.tsx line 73). -/
def isDecisionMaker (currentUser : User) : Bool :=
  currentUser.role == .approver || currentUser.role == .superAdmin

/-- `canApprove` (ReviewRoom.tsx line 75). -/
def canApprove (currentUser : User) (s : ReviewState) : Bool :=
  isDecisionMaker currentUser &&
    (openTasksCount s == 0 || currentUser.role == .superAdmin)

/-- `handleApprove` (ReviewRoom.tsx line 262):
`setCurrentAssetStatus(AssetStatus.APPROVED)`. -/
def handleApprove (s : ReviewState) : ReviewState :=
  { s with currentAssetStatus := .approved }

/-- The Approve button as wired in ReviewRoom.tsx lines 667-684: its
`onClick` is `handleApprove` and it carries `disabled={!canApprove}`, so an
approve attempt changes the status only when `canApprove` holds and is
otherwise refused with the state unchanged. -/
def approveAction (currentUser : User) (s : ReviewState) : ReviewState :=
  if canApprove currentUser s then handleApprove s else s

/-- `handleRequestChanges` (ReviewRoom.tsx line 263). -/
def handleRequestChanges (s : ReviewState) : ReviewState :=
  { s with currentAssetStatus := .changesRequested }

/-- `handleResolveComment` (ReviewRoom.tsx lines 344-350). -/
def handleResolveComment (id : String) (s : ReviewState) : ReviewState :=
  match activeVersion s with
  | none => s
  | some av =>
    let updatedVersion :=
      { av with comments := av.comments.map (fun c =>
          if c.id == id then c.mapData (fun d => { d with resolved := true })
          else c) }
    { s with versions := s.versions.map (fun v =>
        if v.id == av.id then updatedVersion else v) }

/-- `handleUploadNewVersion` (ReviewRoom.tsx lines 239-260).  The source
derives `id`, `url` and `createdAt` from `Date.now()` and the asset type;
those external inputs are parameters here.  `versions[0].versionNumber + 1`
assumes a non-empty version list (see `activeVersion`). -/
def handleUploadNewVersion (newId newUrl : String) (now : Nat)
    (s : ReviewState) : ReviewState :=
  match s.versions.head? with
  | none => s
  | some v0 =>
    let newVersion : AssetVersion :=
      { id := newId
        versionNumber := v0.versionNumber + 1
        url := newUrl
        createdAt := now
        comments := [] }
    { s with
      versions := newVersion :: s.versions
      activeVersionId := newVersion.id
      isUploadModalOpen := false
      isCompareMode := false
      activeCommentId := none
      currentAssetStatus := .pending
      compareVersionId := some v0.id }

/-- `handleAddComment` (ReviewRoom.tsx lines 269-299).  `newCommentId`/`now`
stand for the source's `Date.now()`-derived id and timestamp. -/
def handleAddComment (currentUser : User) (assetType : AssetType)
    (newCommentId : String) (now : Nat)
    (x y : ℚ) (drawing : Option Drawing) (s : ReviewState) : ReviewState :=
  if s.isCompareMode then s
  else if currentUser.role == .observer then s
  else
    let s :=
      if assetType == .video && s.isVideoPlaying then
        { s with isVideoPlaying := false }
      else s
    match activeVersion s with
    | none => s
    | some av =>
      let newComment : Comment :=
        .mk { id := newCommentId
              userId := currentUser.id
              text := ""
              timestamp := now
              resolved := false
              x := some x
              y := some y
              videoTimestamp :=
                if assetType == .video then some s.currentTime else none
              drawing := drawing
              isInternal := false } []
      let updatedVersion := { av with comments := newComment :: av.comments }
      { s with
        versions := s.versions.map (fun v =>
          if v.id == av.id then updatedVersion else v)
        activeCommentId := some newComment.id
        drawingTool :=
          if s.drawingTool != .pointer then .pointer else s.drawingTool }

/-- The drawing-translation step of `handleUpdateCommentPosition`
(ReviewRoom.tsx lines 314-334): a box drawing with a rect gets the delta
added to `rect.x, rect.y`; a pen drawing with points gets it added to every
point; anything else passes through. -/
def moveCommentDrawing (dx dy : ℚ) : Option Drawing → Option Drawing
  | none => none
  | some d =>
    match d.type, d.rect, d.points with
    | .box, some r, _ =>
      some { d with rect := some { r with x := r.x + dx, y := r.y + dy } }
    | .pen, _, some ps =>
      some { d with points := some (ps.map (fun p => ⟨p.x + dx, p.y + dy⟩)) }
    | _, _, _ => some d

/-- The per-comment body of `handleUpdateCommentPosition` (ReviewRoom.tsx
lines 306-337): retarget the pin anchor to `(newX, newY)` and translate the
attached drawing by the same delta (`c.x || 0` reads as `getD 0`, since
`0 || 0` is `0`). -/
def moveComment (id : String) (newX newY : ℚ) (c : Comment) : Comment :=
  if c.id != id then c
  else
    let oldX := c.x.getD 0
    let oldY := c.y.getD 0
    let dx := newX - oldX
    let dy := newY - oldY
    Comment.mk { c.data with x := some newX, y := some newY,
                             drawing := moveCommentDrawing dx dy c.drawing }
      c.replies

/-- `handleUpdateCommentPosition` (ReviewRoom.tsx lines 301-342). -/
def handleUpdateCommentPosition (id : String) (newX newY : ℚ)
    (s : ReviewState) : ReviewState :=
  { s with versions := s.versions.map (fun v =>
      if v.id != s.activeVersionId then v
      else { v with comments := v.comments.map (moveComment id newX newY) }) }

/-- `visibleComments` (ReviewRoom.tsx lines 515-518): drop internal comments
for an approver viewer, keep everything for all other roles. -/
def visibleComments (role : UserRole) (comments : List Comment) :
    List Comment :=
  comments.filter (fun c => !(role == .approver && c.isInternal))

/-! ## Annotation pointer state machine
(src/components/Review/AnnotationLayer.tsx) -/

/-- The bounding rectangle of the annotation container
(`getBoundingClientRect()`), cached at gesture start. -/
structure DOMRect where
  left : ℚ
  top : ℚ
  width : ℚ
  height : ℚ
deriving DecidableEq, Repr

/-- `getPoint` (AnnotationLayer.tsx lines 198-206): convert a mouse event's
client coordinates to normalized (0-100) coordinates using the cached
bounds.  No clamping is performed here. -/
def getPoint (rect : DOMRect) (clientX clientY : ℚ) : Point :=
  ⟨(clientX - rect.left) / rect.width * 100,
   (clientY - rect.top) / rect.height * 100⟩

/-- The local state cells of `AnnotationLayer` driving a gesture. -/
structure AnnState where
  isDrawing : Bool
  currentPath : List Point
  currentStart : Option Point
  currentRect : Option Rect
  draggedCommentId : Option String
  dragPosition : Option Point
deriving DecidableEq, Repr

/-- The initial (idle) annotation-layer state. -/
def AnnState.idle : AnnState :=
  { isDrawing := false
    currentPath := []
    currentStart := none
    currentRect := none
    draggedCommentId := none
    dragPosition := none }

/-- The observable callbacks `AnnotationLayer` fires at gesture end:
`onAddComment(x, y, drawing?)` and `onUpdateCommentPosition(id, x, y)`. -/
inductive AnnEvent where
  | addComment (x y : ℚ) (drawing : Option Drawing)
  | updateCommentPosition (id : String) (x y : ℚ)
deriving DecidableEq, Repr

/-- `handleMouseDown` (AnnotationLayer.tsx lines 208-233).  `point` is the
value `getPoint` computes for this event from the freshly cached bounds. -/
def handleMouseDown (drawingTool : Tool) (isCompareMode : Bool)
    (point : Point) (s : AnnState) : AnnState :=
  if drawingTool == .hand then s
  else if isCompareMode || s.draggedCommentId.isSome then s
  else if drawingTool != .pointer then
    if drawingTool == .pen then
      { s with isDrawing := true, currentPath := [point] }
    else if drawingTool == .box then
      { s with isDrawing := true, currentStart := some point,
               currentRect := some ⟨point.x, point.y, 0, 0⟩ }
    else { s with isDrawing := true }
  else { s with isDrawing := true }

/-- `handleMouseMove` (AnnotationLayer.tsx lines 248-275).  `point` is
`getPoint(e)` for this move event. -/
def handleMouseMove (drawingTool : Tool) (point : Point) (s : AnnState) :
    AnnState :=
  if s.draggedCommentId.isSome then
    { s with dragPosition := some ⟨max 0 (min 100 point.x),
                                   max 0 (min 100 point.y)⟩ }
  else if !s.isDrawing then s
  else if drawingTool == .pen then
    { s with currentPath := s.currentPath ++ [point] }
  else if drawingTool == .box then
    match s.currentStart with
    | some st =>
      let w := point.x - st.x
      let h := point.y - st.y
      let r : Rect := ⟨if w > 0 then st.x else point.x,
                       if h > 0 then st.y else point.y, |w|, |h|⟩
      { s with currentRect := some r }
    | none => s
  else s

/-- `handleMouseUp` (AnnotationLayer.tsx lines 277-316).  Returns the new
state and the callback fired, if any.  `point` is `getPoint(e)` for the
release event (only consulted by the pointer-tool branch). -/
def handleMouseUp (drawingTool : Tool) (isCompareMode : Bool)
    (color : String) (point : Point) (s : AnnState) :
    AnnState × Option AnnEvent :=
  match s.draggedCommentId with
  | some id =>
    ({ s with draggedCommentId := none, dragPosition := none },
     s.dragPosition.map (fun p => .updateCommentPosition id p.x p.y))
  | none =>
    if !s.isDrawing then (s, none)
    else
      let ev : Option AnnEvent :=
        if drawingTool == .pointer && !isCompareMode then
          some (.addComment point.x point.y none)
        else if drawingTool == .pen && s.currentPath.length > 1 then
          match s.currentPath with
          | p0 :: _ =>
            some (.addComment p0.x p0.y
              (some { type := .pen, points := some s.currentPath,
                      color := color }))
          | [] => none
        else if drawingTool == .box then
          match s.currentRect with
          | some r =>
            if r.w > 1 || r.h > 1 then
              some (.addComment (r.x + r.w) r.y
                (some { type := .box, rect := some r, color := color }))
            else none
          | none => none
        else none
      ({ s with isDrawing := false, currentPath := [],
                currentRect := none, currentStart := none }, ev)

/-- `handleMouseLeave` (AnnotationLayer.tsx lines 318-324). -/
def handleMouseLeave (s : AnnState) : AnnState :=
  { s with isDrawing := false, draggedCommentId := none,
           dragPosition := none }

/-- Run a sequence of move events through `handleMouseMove`. -/
def runMoves (drawingTool : Tool) (moves : List Point) (s : AnnState) :
    AnnState :=
  moves.foldl (fun st p => handleMouseMove drawingTool p st) s

/-- A complete pen gesture from the idle state: pointer-down at `downP`
followed by one move per element of `moves` (captured points are therefore
`downP :: moves`). -/
def penGesture (downP : Point) (moves : List Point) : AnnState :=
  runMoves .pen moves (handleMouseDown .pen false downP .idle)

/-- A complete box gesture from the idle state: pointer-down at `anchor`
followed by one move per element of `moves`. -/
def boxGesture (anchor : Point) (moves : List Point) : AnnState :=
  runMoves .box moves (handleMouseDown .box false anchor .idle)

/-- Modelled from the spec (§4.1 Normalized Coordinate Model & Drawing
Primitives): translating a Drawing by `(dx, dy)` — Pen adds the delta to
every point; Box adds it to the rect's `x, y` only (`w`, `h` and `color`
unchanged).  Used to compare the source's `handleUpdateCommentPosition`
against the spec's wording. -/
def Drawing.translate (dx dy : ℚ) (d : Drawing) : Drawing :=
  match d.type with
  | .pen =>
    { d with points :=
        d.points.map (fun ps => ps.map (fun p => ⟨p.x + dx, p.y + dy⟩)) }
  | .box =>
    { d with rect :=
        d.rect.map (fun r => { r with x := r.x + dx, y := r.y + dy }) }

/-! ### Concrete sample data used by scenario conjuncts and witnesses -/

/-- The author of the sample comments in the concrete scenarios. -/
def sampleCreator : User :=
  { id := "u-cre", name := "Casey", role := .creator, avatar := "" }

/-- An approver (non-override decision-maker) for the approval-gate
scenario. -/
def sampleApprover : User :=
  { id := "u-appr", name := "Avery", role := .approver, avatar := "" }

/-- A plain positioned comment with a given resolution flag. -/
def mkSampleComment (id : String) (resolved : Bool) : Comment :=
  .mk { id := id, userId := "u-cre", text := "note", timestamp := 0,
        resolved := resolved, x := some 10, y := some 10 } []

/-- A review state on one version carrying comments c1, c2 (unresolved) and
c3 (resolved). -/
def gateState : ReviewState :=
  { activeVersionId := "v1"
    compareVersionId := none
    versions := [{ id := "v1", versionNumber := 1, url := "u", createdAt := 0,
                   comments := [mkSampleComment "c1" false,
                                mkSampleComment "c2" false,
                                mkSampleComment "c3" true] }]
    isUploadModalOpen := false
    currentAssetStatus := .pending
    isCompareMode := false
    activeCommentId := none
    isVideoPlaying := false
    drawingTool := .pointer
    zoom := 1
    pan := ⟨0, 0⟩
    currentTime := 0 }

/-- An internal comment for the visibility-filter witness. -/
def internalComment : Comment :=
  .mk { id := "ci", userId := "u-cre", text := "internal note",
        timestamp := 0, resolved := false, x := some 5, y := some 5,
        isInternal := true } []

/-- A comment with a pen drawing, for the translate-round-trip witness. -/
def penComment : Comment :=
  .mk { id := "cd", userId := "u-cre", text := "circle this", timestamp := 0,
        resolved := false, x := some 10, y := some 10,
        drawing := some { type := .pen,
                          points := some [⟨10, 10⟩, ⟨12, 14⟩],
                          color := "#3b82f6" } } []

/-- A review state whose single active version holds `penComment`. -/
def penState : ReviewState :=
  { gateState with
    versions := [{ id := "v1", versionNumber := 1, url := "u",
                   createdAt := 0, comments := [penComment] }] }

/-! ## Theorems -/

/-- The wheel handler's new zoom is always inside `[0.1, 5]` (outside compare
mode it is the clamp of the scaled zoom; in compare mode the zoom is
unchanged). -/
theorem handleWheel_zoom_mem (deltaY clientX clientY rectLeft rectTop : ℚ)
    (s : ReviewState) (h : s.isCompareMode = false) :
    (handleWheel deltaY clientX clientY rectLeft rectTop s).zoom =
      min (max (1/10) (s.zoom * (1 + -deltaY * (2/1000)))) 5 := by
  simp [handleWheel, h]

/-- C1 (Zoom-anchor invariance): outside compare mode, for any starting zoom
in `[0.1, 5]`, any pan and any wheel delta, `handleWheel` produces
`(z1, p1)` with `p1 = m - (m - p0) * (z1/z0)` for the pointer position `m`
relative to the viewport's top-left, and the content point rendered under
`m` is the same before and after — the content under the cursor does not
move. -/
theorem zoom_anchor_invariance
    (s : ReviewState) (deltaY clientX clientY rectLeft rectTop : ℚ)
    (hc : s.isCompareMode = false)
    (hlo : 1/10 ≤ s.zoom) (hhi : s.zoom ≤ 5) :
    let s' := handleWheel deltaY clientX clientY rectLeft rectTop s
    let m : Point := ⟨clientX - rectLeft, clientY - rectTop⟩
    s'.pan.x = m.x - (m.x - s.pan.x) * (s'.zoom / s.zoom) ∧
    s'.pan.y = m.y - (m.y - s.pan.y) * (s'.zoom / s.zoom) ∧
    contentPointUnder s'.zoom s'.pan m = contentPointUnder s.zoom s.pan m := by
  intro s' m
  have hz0 : s.zoom ≠ 0 := by
    have : (0:ℚ) < 1/10 := by norm_num
    exact ne_of_gt (lt_of_lt_of_le this hlo)
  have hz1pos : 0 < s'.zoom := by
    rw [show s' = handleWheel deltaY clientX clientY rectLeft rectTop s from
      rfl, handleWheel_zoom_mem _ _ _ _ _ _ hc]
    have h1 : (0:ℚ) < 1/10 := by norm_num
    exact lt_min (lt_of_lt_of_le h1 (le_max_left _ _)) (by norm_num)
  have hz1 : s'.zoom ≠ 0 := ne_of_gt hz1pos
  have hpx : s'.pan.x = m.x - (m.x - s.pan.x) * (s'.zoom / s.zoom) := by
    simp only [s', handleWheel, hc, Bool.false_eq_true, if_false, m]
  have hpy : s'.pan.y = m.y - (m.y - s.pan.y) * (s'.zoom / s.zoom) := by
    simp only [s', handleWheel, hc, Bool.false_eq_true, if_false, m]
  refine ⟨hpx, hpy, ?_⟩
  simp only [contentPointUnder, Point.mk.injEq]
  constructor
  · rw [hpx]
    field_simp
    ring
  · rw [hpy]
    field_simp
    ring

/-- Witness for `zoom_anchor_invariance` at a concrete state and wheel
event. -/
theorem zoom_anchor_invariance_witness :
    let s : ReviewState :=
      { activeVersionId := "v1", compareVersionId := none, versions := []
        isUploadModalOpen := false, currentAssetStatus := .pending
        isCompareMode := false, activeCommentId := none
        isVideoPlaying := false, drawingTool := .pointer
        zoom := 1, pan := ⟨3, 4⟩, currentTime := 0 }
    let s' := handleWheel (-100) 50 60 10 20 s
    let m : Point := ⟨50 - 10, 60 - 20⟩
    s'.pan.x = m.x - (m.x - s.pan.x) * (s'.zoom / s.zoom) ∧
    s'.pan.y = m.y - (m.y - s.pan.y) * (s'.zoom / s.zoom) ∧
    contentPointUnder s'.zoom s'.pan m = contentPointUnder s.zoom s.pan m :=
  zoom_anchor_invariance _ (-100) 50 60 10 20 rfl (by norm_num) (by norm_num)

/-- One viewport operation keeps the zoom inside `[0.1, 5]`. -/
theorem applyViewportOp_zoom_mem (s : ReviewState) (op : ViewportOp)
    (hlo : 1/10 ≤ s.zoom) (hhi : s.zoom ≤ 5) :
    1/10 ≤ (applyViewportOp s op).zoom ∧ (applyViewportOp s op).zoom ≤ 5 := by
  cases op with
  | wheel d cx cy rl rt =>
    by_cases h : s.isCompareMode
    · have hs : applyViewportOp s (.wheel d cx cy rl rt) = s := by
        simp [applyViewportOp, handleWheel, h]
      rw [hs]; exact ⟨hlo, hhi⟩
    · rw [applyViewportOp, handleWheel_zoom_mem _ _ _ _ _ _
        (Bool.not_eq_true _ ▸ h)]
      refine ⟨le_min (le_max_left _ _) (by norm_num), min_le_right _ _⟩
  | zoomInBtn =>
    refine ⟨?_, ?_⟩
    · simp only [applyViewportOp, zoomInButton]
      exact le_min (by norm_num) (by linarith)
    · simp only [applyViewportOp, zoomInButton]
      exact min_le_left _ _
  | zoomOutBtn =>
    refine ⟨?_, ?_⟩
    · simp only [applyViewportOp, zoomOutButton]
      exact le_max_left _ _
    · simp only [applyViewportOp, zoomOutButton]
      exact max_le (by norm_num) (by linarith)

/-- C6 (Zoom clamp invariant): starting from any zoom in `[0.1, 5]`, any
finite sequence of wheel events (arbitrary deltas, in or out of compare
mode) and ±0.25 zoom-button presses leaves the zoom inside `[0.1, 5]`. -/
theorem zoom_clamp_invariant (s : ReviewState) (ops : List ViewportOp)
    (hlo : 1/10 ≤ s.zoom) (hhi : s.zoom ≤ 5) :
    1/10 ≤ (ops.foldl applyViewportOp s).zoom ∧
      (ops.foldl applyViewportOp s).zoom ≤ 5 := by
  induction ops generalizing s with
  | nil => exact ⟨hlo, hhi⟩
  | cons op rest ih =>
    have h := applyViewportOp_zoom_mem s op hlo hhi
    exact ih (applyViewportOp s op) h.1 h.2

/-- Witness for `zoom_clamp_invariant`: thirty maximal zoom-out wheel events
from zoom 1 still leave the zoom at least 0.1. -/
theorem zoom_clamp_invariant_witness :
    let s : ReviewState :=
      { activeVersionId := "v1", compareVersionId := none, versions := []
        isUploadModalOpen := false, currentAssetStatus := .pending
        isCompareMode := false, activeCommentId := none
        isVideoPlaying := false, drawingTool := .pointer
        zoom := 1, pan := ⟨0, 0⟩, currentTime := 0 }
    let ops := List.replicate 30 (ViewportOp.wheel 100000 0 0 0 0) ++
      [ViewportOp.zoomInBtn, ViewportOp.zoomOutBtn]
    1/10 ≤ (ops.foldl applyViewportOp s).zoom ∧
      (ops.foldl applyViewportOp s).zoom ≤ 5 := by
  exact zoom_clamp_invariant _ _ (by norm_num) (by norm_num)

/-- A pen-tool move appends the current point to the draft path. -/
theorem handleMouseMove_pen (s : AnnState) (p : Point)
    (h1 : s.draggedCommentId = none) (h2 : s.isDrawing = true) :
    handleMouseMove .pen p s = { s with currentPath := s.currentPath ++ [p] } := by
  simp [handleMouseMove, h1, h2]

/-- A box-tool move recomputes the draft rectangle as the min-corner plus
positive extent of the anchor and the current point. -/
theorem handleMouseMove_box_rect (s : AnnState) (a p : Point)
    (h1 : s.draggedCommentId = none) (h2 : s.isDrawing = true)
    (h3 : s.currentStart = some a) :
    handleMouseMove .box p s =
      { s with currentRect := some ⟨min a.x p.x, min a.y p.y, |p.x - a.x|, |p.y - a.y|⟩ } := by
  have hx : (if p.x - a.x > 0 then a.x else p.x) = min a.x p.x := by
    by_cases h : p.x - a.x > 0
    · rw [if_pos h, min_eq_left (le_of_lt (by linarith))]
    · rw [if_neg h, min_eq_right (by linarith [not_lt.mp h])]
  have hy : (if p.y - a.y > 0 then a.y else p.y) = min a.y p.y := by
    by_cases h : p.y - a.y > 0
    · rw [if_pos h, min_eq_left (le_of_lt (by linarith))]
    · rw [if_neg h, min_eq_right (by linarith [not_lt.mp h])]
  simp only [handleMouseMove, h1, h2, h3, Option.isSome_none,
    Bool.false_eq_true, if_false, Bool.not_true, reduceCtorEq, beq_iff_eq,
    reduceIte]
  rw [hx, hy]

/-- Running pen moves appends all their points to the draft path. -/
theorem runMoves_pen (moves : List Point) (s : AnnState)
    (h1 : s.draggedCommentId = none) (h2 : s.isDrawing = true) :
    runMoves .pen moves s = { s with currentPath := s.currentPath ++ moves } := by
  induction moves generalizing s with
  | nil => simp [runMoves]
  | cons p ps ih =>
    show runMoves .pen ps (handleMouseMove .pen p s) = _
    rw [handleMouseMove_pen s p h1 h2,
      ih { s with currentPath := s.currentPath ++ [p] } h1 h2]
    simp

/-- The state produced by a full pen gesture: drawing in progress with the
captured path `downP :: moves`, nothing else set. -/
theorem penGesture_state (downP : Point) (moves : List Point) :
    penGesture downP moves =
      { isDrawing := true, currentPath := downP :: moves,
        currentStart := none, currentRect := none,
        draggedCommentId := none, dragPosition := none } := by
  show runMoves .pen moves (handleMouseDown .pen false downP .idle) = _
  rw [show handleMouseDown .pen false downP .idle =
      { isDrawing := true, currentPath := [downP], currentStart := none,
        currentRect := none, draggedCommentId := none,
        dragPosition := none } from rfl]
  rw [runMoves_pen moves _ rfl rfl]
  rfl

/-- Running box moves only rewrites `currentRect`, and any rewritten value is
a min-corner/positive-extent rectangle against the anchor. -/
theorem runMoves_box_struct (a : Point) (moves : List Point) (s : AnnState)
    (h1 : s.draggedCommentId = none) (h2 : s.isDrawing = true)
    (h3 : s.currentStart = some a) :
    ∃ cr : Option Rect, runMoves .box moves s = { s with currentRect := cr } ∧
      (cr = s.currentRect ∨ ∃ p : Point,
        cr = some ⟨min a.x p.x, min a.y p.y, |p.x - a.x|, |p.y - a.y|⟩) := by
  induction moves generalizing s with
  | nil => exact ⟨s.currentRect, rfl, Or.inl rfl⟩
  | cons p ps ih =>
    show ∃ cr, runMoves .box ps (handleMouseMove .box p s) = _ ∧ _
    rw [handleMouseMove_box_rect s a p h1 h2 h3]
    obtain ⟨cr, heq, hcr⟩ := ih
      { s with currentRect := some ⟨min a.x p.x, min a.y p.y, |p.x - a.x|, |p.y - a.y|⟩ }
      h1 h2 h3
    refine ⟨cr, heq, Or.inr ?_⟩
    rcases hcr with h | h
    · exact ⟨p, h⟩
    · exact h

/-- The state produced by a full box gesture: drawing in progress with the
anchor recorded and some rectangle in `currentRect`. -/
theorem boxGesture_state (a : Point) (moves : List Point) :
    ∃ r : Rect, boxGesture a moves =
      { isDrawing := true, currentPath := [], currentStart := some a,
        currentRect := some r, draggedCommentId := none,
        dragPosition := none } := by
  show ∃ r, runMoves .box moves (handleMouseDown .box false a .idle) = _
  rw [show handleMouseDown .box false a .idle =
      { isDrawing := true, currentPath := [], currentStart := some a,
        currentRect := some ⟨a.x, a.y, 0, 0⟩, draggedCommentId := none,
        dragPosition := none } from rfl]
  obtain ⟨cr, heq, hcr⟩ := runMoves_box_struct a moves
    { isDrawing := true, currentPath := [], currentStart := some a,
      currentRect := some ⟨a.x, a.y, 0, 0⟩, draggedCommentId := none,
      dragPosition := none } rfl rfl rfl
  rcases hcr with h | ⟨p, h⟩
  · exact ⟨⟨a.x, a.y, 0, 0⟩, by rw [heq, h]⟩
  · exact ⟨_, by rw [heq, h]⟩

/-- C4 (Box normalization): during a box gesture with anchor `a`, each mouse
move recomputes the rect as the min-corner plus positive extent,
`⟨min a.x p.x, min a.y p.y, |p.x - a.x|, |p.y - a.y|⟩`; in particular
dragging from (60,60) to (20,20) yields `{x:20, y:20, w:40, h:40}`. -/
theorem box_normalization (s : AnnState) (a p : Point)
    (h1 : s.draggedCommentId = none) (h2 : s.isDrawing = true)
    (h3 : s.currentStart = some a) :
    (handleMouseMove .box p s).currentRect =
      some ⟨min a.x p.x, min a.y p.y, |p.x - a.x|, |p.y - a.y|⟩ ∧
    (boxGesture ⟨60, 60⟩ [⟨20, 20⟩]).currentRect =
      some ⟨20, 20, 40, 40⟩ := by
  constructor
  · rw [handleMouseMove_box_rect s a p h1 h2 h3]
  · show (handleMouseMove .box ⟨20, 20⟩
        (handleMouseDown .box false ⟨60, 60⟩ .idle)).currentRect = _
    rw [handleMouseMove_box_rect _ ⟨60, 60⟩ ⟨20, 20⟩ rfl rfl rfl]
    norm_num

/-- Witness for `box_normalization` at a concrete in-progress box state and
move. -/
theorem box_normalization_witness :
    (handleMouseMove .box ⟨10, 80⟩
        { isDrawing := true, currentPath := [], currentStart := some ⟨30, 40⟩,
          currentRect := some ⟨30, 40, 0, 0⟩, draggedCommentId := none,
          dragPosition := none }).currentRect =
      some ⟨min (30:ℚ) 10, min (40:ℚ) 80, |(10:ℚ) - 30|, |(80:ℚ) - 40|⟩ ∧
    (boxGesture ⟨60, 60⟩ [⟨20, 20⟩]).currentRect =
      some ⟨20, 20, 40, 40⟩ :=
  box_normalization _ ⟨30, 40⟩ ⟨10, 80⟩ rfl rfl rfl

/-- C3 (Discard thresholds, amended): a pen gesture captures `downP :: moves`
and commits exactly one comment iff it has 2 or more points (no comment for a
single-point gesture); a box gesture commits exactly one comment iff its
final rect has `w > 1` or `h > 1` (strict, per the source's
`currentRect.w > 1 || currentRect.h > 1`), and commits nothing otherwise —
in particular a box with `w < 1` and `h < 1` commits nothing. -/
theorem discard_thresholds :
    (∀ (downP : Point) (moves : List Point) (color : String) (up : Point),
      (penGesture downP moves).currentPath = downP :: moves ∧
      (handleMouseUp .pen false color up (penGesture downP moves)).2 =
        (if moves = [] then none
         else some (.addComment downP.x downP.y
           (some { type := .pen, points := some (downP :: moves),
                   color := color })))) ∧
    (∀ (a : Point) (moves : List Point) (color : String) (up : Point),
      ∃ r : Rect, (boxGesture a moves).currentRect = some r ∧
        (handleMouseUp .box false color up (boxGesture a moves)).2 =
          (if 1 < r.w ∨ 1 < r.h then
            some (.addComment (r.x + r.w) r.y
              (some { type := .box, rect := some r, color := color }))
           else none)) := by
  constructor
  · intro downP moves color up
    rw [penGesture_state]
    refine ⟨rfl, ?_⟩
    cases moves with
    | nil => simp [handleMouseUp]
    | cons p ps => simp [handleMouseUp]
  · intro a moves color up
    obtain ⟨r, hr⟩ := boxGesture_state a moves
    refine ⟨r, by rw [hr], ?_⟩
    rw [hr]
    by_cases h : 1 < r.w ∨ 1 < r.h
    · rw [if_pos h]
      simp only [handleMouseUp]
      simp [h]
    · rw [if_neg h]
      push_neg at h
      simp only [handleMouseUp]
      simp [not_lt.mpr h.1, not_lt.mpr h.2]

/-- C3 as stated is false at the boundary: the box gesture dragged from
(0,0) to (1,0) ends with rect `{x:0, y:0, w:1, h:0}` — so `w ≥ 1` — yet
releasing the mouse commits no comment. -/
theorem discard_thresholds_counterexample :
    (boxGesture ⟨0, 0⟩ [⟨1, 0⟩]).currentRect = some ⟨0, 0, 1, 0⟩ ∧
    (handleMouseUp .box false "#ef4444" ⟨1, 0⟩
        (boxGesture ⟨0, 0⟩ [⟨1, 0⟩])).2 = none := by
  have hst : boxGesture ⟨0, 0⟩ [⟨1, 0⟩] =
      { isDrawing := true, currentPath := [], currentStart := some ⟨0, 0⟩,
        currentRect := some ⟨0, 0, 1, 0⟩, draggedCommentId := none,
        dragPosition := none } := by
    show handleMouseMove .box ⟨1, 0⟩
        (handleMouseDown .box false ⟨0, 0⟩ .idle) = _
    rw [show handleMouseDown .box false ⟨0, 0⟩ .idle =
        { isDrawing := true, currentPath := [], currentStart := some ⟨0, 0⟩,
          currentRect := some ⟨0, 0, 0, 0⟩, draggedCommentId := none,
          dragPosition := none } from rfl]
    rw [handleMouseMove_box_rect _ ⟨0, 0⟩ ⟨1, 0⟩ rfl rfl rfl]
    norm_num
  refine ⟨by rw [hst], ?_⟩
  rw [hst]
  norm_num [handleMouseUp]
  exact fun h => absurd h (by decide)

/-- C10 (Commit pin anchor): when a box gesture commits, the new comment's
pin anchor is the top-right corner of the normalized rect,
`(r.x + r.w, r.y)`; when a pen gesture commits, the anchor is the first
captured point of the stroke, passed through unchanged (no clamping to
`[0, 100]`). -/
theorem commit_pin_anchor (s : AnnState) (color : String) (up : Point)
    (h1 : s.draggedCommentId = none) (h2 : s.isDrawing = true) :
    (∀ r : Rect, s.currentRect = some r → (1 < r.w ∨ 1 < r.h) →
      (handleMouseUp .box false color up s).2 =
        some (.addComment (r.x + r.w) r.y
          (some { type := .box, rect := some r, color := color }))) ∧
    (∀ (p0 : Point) (rest : List Point), s.currentPath = p0 :: rest →
      rest ≠ [] →
      (handleMouseUp .pen false color up s).2 =
        some (.addComment p0.x p0.y
          (some { type := .pen, points := some (p0 :: rest),
                  color := color }))) := by
  constructor
  · intro r hr hwh
    simp only [handleMouseUp, h1, h2]
    rcases hwh with h | h
    · simp [hr, h]
    · simp [hr, h]
  · intro p0 rest hp hne
    cases rest with
    | nil => exact absurd rfl hne
    | cons q qs => simp [handleMouseUp, h1, h2, hp]

/-- Witness for `commit_pin_anchor`: a box commit anchored at (5+2, 6), and
a pen commit anchored at the out-of-range first point (-5, 120). -/
theorem commit_pin_anchor_witness :
    let s : AnnState :=
      { isDrawing := true, currentPath := [⟨-5, 120⟩, ⟨3, 4⟩],
        currentStart := none, currentRect := some ⟨5, 6, 2, 3⟩,
        draggedCommentId := none, dragPosition := none }
    (handleMouseUp .box false "#22c55e" ⟨0, 0⟩ s).2 =
      some (.addComment (5 + 2 : ℚ) 6
        (some { type := .box, rect := some ⟨5, 6, 2, 3⟩,
                color := "#22c55e" })) ∧
    (handleMouseUp .pen false "#22c55e" ⟨0, 0⟩ s).2 =
      some (.addComment (-5 : ℚ) 120
        (some { type := .pen, points := some [⟨-5, 120⟩, ⟨3, 4⟩],
                color := "#22c55e" })) := by
  refine ⟨(commit_pin_anchor _ _ _ rfl rfl).1 ⟨5, 6, 2, 3⟩ rfl
    (Or.inl (by norm_num)), ?_⟩
  exact (commit_pin_anchor _ _ _ rfl rfl).2 ⟨-5, 120⟩ [⟨3, 4⟩] rfl
    (by simp)

/-- The source's `canApprove` boolean, restated as the proposition of the
spec: decision-making role, and either no open tasks or the top-level
override role. -/
theorem canApprove_iff (u : User) (s : ReviewState) :
    canApprove u s = true ↔
      (u.role = .approver ∨ u.role = .superAdmin) ∧
        (openTasksCount s = 0 ∨ u.role = .superAdmin) := by
  simp [canApprove, isDecisionMaker, Bool.and_eq_true, Bool.or_eq_true,
    beq_iff_eq]

/-- C2 (Approval gate): an approve attempt succeeds (status set to Approved)
exactly when the actor's role is Approver or SuperAdmin and either the
active version has zero unresolved comments or the actor is SuperAdmin, and
is otherwise refused with the state unchanged.  In particular, on a version
with 2 unresolved and 1 resolved comment an Approver's approve is a no-op;
after resolving both remaining comments the identical call sets the status
to Approved. -/
theorem approval_gate :
    (∀ (u : User) (s : ReviewState),
      approveAction u s =
        if (u.role = .approver ∨ u.role = .superAdmin) ∧
           (openTasksCount s = 0 ∨ u.role = .superAdmin)
        then { s with currentAssetStatus := .approved } else s) ∧
    openTasksCount gateState = 2 ∧
    approveAction sampleApprover gateState = gateState ∧
    (approveAction sampleApprover
      (handleResolveComment "c2"
        (handleResolveComment "c1" gateState))).currentAssetStatus =
      .approved := by
  refine ⟨?_, rfl, rfl, rfl⟩
  intro u s
  by_cases h : (u.role = .approver ∨ u.role = .superAdmin) ∧
      (openTasksCount s = 0 ∨ u.role = .superAdmin)
  · rw [if_pos h, approveAction, if_pos ((canApprove_iff u s).mpr h)]
    rfl
  · rw [if_neg h, approveAction,
      if_neg (fun hb => h ((canApprove_iff u s).mp hb))]

/-- C7 (Visibility filter): a comment in the list is rendered exactly unless
the viewer's role is Approver and the comment is internal (so an internal
comment is hidden from an Approver and shown to Creator, SuperAdmin and
Observer viewers), and the filter returns a sublist of the input — the
underlying comment data is neither mutated nor deleted. -/
theorem visibility_filter (role : UserRole) (comments : List Comment)
    (c : Comment) (hc : c ∈ comments) :
    (c ∈ visibleComments role comments ↔
      ¬(role = .approver ∧ c.isInternal = true)) ∧
    (visibleComments role comments).Sublist comments := by
  refine ⟨?_, List.filter_sublist _⟩
  simp only [visibleComments, List.mem_filter, hc, true_and,
    Bool.not_eq_true', Bool.and_eq_false_iff, beq_eq_false_iff_ne,
    Bool.not_eq_true]
  constructor
  · rintro (h | h) ⟨ha, hi⟩
    · exact h ha
    · rw [hi] at h; cases h
  · intro h
    by_cases hr : role = .approver
    · right
      by_cases hi : c.isInternal = true
      · exact absurd ⟨hr, hi⟩ h
      · simpa using hi
    · exact Or.inl hr

/-- Witness for `visibility_filter`: the same internal comment is absent
from the rendered list for an Approver viewer and present for a Creator
viewer. -/
theorem visibility_filter_witness :
    internalComment ∉ visibleComments .approver [internalComment] ∧
    internalComment ∈ visibleComments .creator [internalComment] := by
  constructor
  · exact fun hmem =>
      ((visibility_filter .approver [internalComment] internalComment
        (by simp)).1.mp hmem) ⟨rfl, rfl⟩
  · exact (visibility_filter .creator [internalComment] internalComment
      (by simp)).1.mpr (by rintro ⟨h, -⟩; cases h)

/-- C8 (Upload-new-version postcondition): from any state whose head version
has the maximal version number, uploading a new version sets the status to
Pending (whatever it was before), prepends a fresh version with an empty
comment list whose number is strictly greater than every existing version's
number, and leaves all previously existing versions (and their comment
lists) unchanged in place. -/
theorem upload_new_version (s : ReviewState) (v0 : AssetVersion)
    (rest : List AssetVersion) (hv : s.versions = v0 :: rest)
    (hmax : ∀ v ∈ s.versions, v.versionNumber ≤ v0.versionNumber)
    (newId newUrl : String) (now : Nat) :
    (handleUploadNewVersion newId newUrl now s).currentAssetStatus =
      .pending ∧
    (handleUploadNewVersion newId newUrl now s).versions =
      { id := newId, versionNumber := v0.versionNumber + 1, url := newUrl,
        createdAt := now, comments := [] } :: s.versions ∧
    (∀ v ∈ s.versions,
      v.versionNumber < v0.versionNumber + 1) := by
  have hhead : s.versions.head? = some v0 := by rw [hv]; rfl
  refine ⟨?_, ?_, fun v hvm => Nat.lt_succ_of_le (hmax v hvm)⟩
  · simp [handleUploadNewVersion, hhead]
  · simp [handleUploadNewVersion, hhead]

/-- Witness for `upload_new_version`: uploading over an Approved two-version
asset yields Pending status and a prepended version 3 with no comments. -/
theorem upload_new_version_witness :
    let v2 : AssetVersion :=
      { id := "v2", versionNumber := 2, url := "u2", createdAt := 1,
        comments := [mkSampleComment "c9" false] }
    let v1 : AssetVersion :=
      { id := "v1", versionNumber := 1, url := "u1", createdAt := 0,
        comments := [] }
    let s : ReviewState :=
      { gateState with versions := [v2, v1],
                       currentAssetStatus := .approved }
    (handleUploadNewVersion "v3" "u3" 2 s).currentAssetStatus = .pending ∧
    (handleUploadNewVersion "v3" "u3" 2 s).versions =
      { id := "v3", versionNumber := 3, url := "u3", createdAt := 2,
        comments := [] } :: s.versions ∧
    (∀ v ∈ s.versions, v.versionNumber < 3) := by
  intro v2 v1 s
  refine upload_new_version s v2 [v1] rfl ?_ "v3" "u3" 2
  intro v hv
  have hv2 : v = v2 ∨ v = v1 := by simpa [s] using hv
  rcases hv2 with rfl | rfl
  · exact le_refl _
  · show (1:ℕ) ≤ 2
    norm_num

/-- C9 (Permission-denial atomicity): when the actor is an Observer or
compare mode is active, the add-comment operation is a silent no-op — the
whole review state (versions and comments, active selection, active tool,
everything) is returned unchanged, and no failure is signalled. -/
theorem permission_denial_noop (u : User) (assetType : AssetType)
    (newCommentId : String) (now : Nat) (x y : ℚ)
    (drawing : Option Drawing) (s : ReviewState)
    (h : u.role = .observer ∨ s.isCompareMode = true) :
    handleAddComment u assetType newCommentId now x y drawing s = s := by
  rcases h with h | h
  · by_cases hc : s.isCompareMode
    · simp [handleAddComment, hc]
    · simp [handleAddComment, hc, h]
  · simp [handleAddComment, h]

/-- Witness for `permission_denial_noop`: an Observer's pen-comment commit
on the sample state changes nothing. -/
theorem permission_denial_noop_witness :
    handleAddComment
      { id := "u-obs", name := "Ollie", role := .observer, avatar := "" }
      .image "c-new" 99 10 20
      (some { type := .pen, points := some [⟨10, 20⟩, ⟨11, 21⟩],
              color := "#ef4444" })
      gateState = gateState :=
  permission_denial_noop _ .image "c-new" 99 10 20 _ gateState
    (Or.inl rfl)

/-- The source's drawing-translation step coincides with the spec-worded
`Drawing.translate` on every drawing, present or absent. -/
theorem moveCommentDrawing_eq (dx dy : ℚ) (od : Option Drawing) :
    moveCommentDrawing dx dy od = od.map (Drawing.translate dx dy) := by
  cases od with
  | none => rfl
  | some d =>
    obtain ⟨t, pts, rect, color⟩ := d
    cases t <;> cases pts <;> cases rect <;>
      simp [moveCommentDrawing, Drawing.translate]

/-- Two translations compose by adding the deltas. -/
theorem Drawing.translate_translate (dx dy ex ey : ℚ) (d : Drawing) :
    Drawing.translate ex ey (Drawing.translate dx dy d) =
      Drawing.translate (dx + ex) (dy + ey) d := by
  obtain ⟨t, pts, rect, color⟩ := d
  cases t <;> cases pts <;> cases rect <;>
    simp [Drawing.translate, List.map_map, Function.comp, add_assoc]

/-- Translating by zero changes nothing. -/
theorem Drawing.translate_zero (d : Drawing) :
    Drawing.translate 0 0 d = d := by
  obtain ⟨t, pts, rect, color⟩ := d
  have hp : ∀ p : Point, (⟨p.x + 0, p.y + 0⟩ : Point) = p := fun p => by
    cases p; simp
  cases t <;> cases pts <;> cases rect <;>
    simp [Drawing.translate, List.map_congr_left (fun p _ => hp p)]

/-- Rebuilding a comment from its own parts is the identity. -/
theorem Comment.mk_data_replies (c : Comment) :
    Comment.mk c.data c.replies = c := by
  cases c; rfl

/-- Re-setting a comment's recorded anchor fields to their current values
changes nothing. -/
theorem CommentData.update_xy_eta (d : CommentData) {x0 y0 : ℚ}
    (hx : d.x = some x0) (hy : d.y = some y0) :
    ({ d with x := some x0, y := some y0 } : CommentData) = d := by
  cases d
  simp only at hx hy
  subst hx
  subst hy
  rfl

/-- `moveComment` leaves every comment with a different id untouched. -/
theorem moveComment_ne (id : String) (nx ny : ℚ) (c : Comment)
    (h : ¬c.id = id) : moveComment id nx ny c = c := by
  have hb : (c.id != id) = true := by simp [h]
  simp [moveComment, hb]

/-- `moveComment` on the matching comment sets the anchor to the new
position and translates the drawing by `(newX - x0, newY - y0)` — the
spec's §4.1 translation — leaving text, replies and all other fields
unchanged. -/
theorem moveComment_eq_translate (id : String) (newX newY x0 y0 : ℚ)
    (c : Comment) (hid : c.id = id) (hx : c.x = some x0)
    (hy : c.y = some y0) :
    moveComment id newX newY c =
      Comment.mk
        { c.data with x := some newX, y := some newY,
                      drawing := c.drawing.map
                        (Drawing.translate (newX - x0) (newY - y0)) }
        c.replies := by
  have hne : (c.id != id) = false := by simp [hid]
  simp only [moveComment, hne, Bool.false_eq_true, if_false, hx, hy,
    Option.getD_some, moveCommentDrawing_eq]

/-- Moving a comment out by `(dx, dy)` and back restores it exactly. -/
theorem moveComment_roundtrip (id : String) (dx dy x0 y0 : ℚ) (c : Comment)
    (hid : c.id = id) (hx : c.x = some x0) (hy : c.y = some y0) :
    moveComment id x0 y0 (moveComment id (x0 + dx) (y0 + dy) c) = c := by
  rw [moveComment_eq_translate id (x0 + dx) (y0 + dy) x0 y0 c hid hx hy]
  rw [moveComment_eq_translate id x0 y0 (x0 + dx) (y0 + dy)
    (Comment.mk
      { c.data with x := some (x0 + dx), y := some (y0 + dy),
                    drawing := c.drawing.map
                      (Drawing.translate (x0 + dx - x0) (y0 + dy - y0)) }
      c.replies) hid rfl rfl]
  simp only [Comment.data_mk, Comment.replies_mk, Comment.drawing]
  rw [Option.map_map]
  have hc : Drawing.translate (x0 - (x0 + dx)) (y0 - (y0 + dy)) ∘
      Drawing.translate (x0 + dx - x0) (y0 + dy - y0) =
      Drawing.translate 0 0 := by
    funext d
    rw [Function.comp_apply, Drawing.translate_translate]
    congr 1 <;> ring
  rw [hc]
  have hid' : Option.map (Drawing.translate 0 0) c.data.drawing =
      c.data.drawing := by
    cases hdr : c.data.drawing with
    | none => rfl
    | some d => simp [Drawing.translate_zero]
  rw [hid']
  rw [CommentData.update_xy_eta c.data hx hy, Comment.mk_data_replies]

/-- Dragging a pin out by `(dx, dy)` and back through
`handleUpdateCommentPosition` restores the whole review state, provided
every comment carrying the dragged id sits at the original anchor. -/
theorem handleUpdateCommentPosition_roundtrip (id : String)
    (dx dy x0 y0 : ℚ) (s : ReviewState)
    (hsc : ∀ v ∈ s.versions, ∀ c ∈ v.comments, c.id = id →
      c.x = some x0 ∧ c.y = some y0) :
    handleUpdateCommentPosition id x0 y0
      (handleUpdateCommentPosition id (x0 + dx) (y0 + dy) s) = s := by
  show ({ s with versions :=
    ((s.versions.map (fun v => if v.id != s.activeVersionId then v
        else { v with comments :=
          v.comments.map (moveComment id (x0 + dx) (y0 + dy)) })).map
      (fun v => if v.id != s.activeVersionId then v
        else { v with comments :=
          v.comments.map (moveComment id x0 y0) })) } : ReviewState) = s
  rw [List.map_map]
  have hone : ∀ v ∈ s.versions,
      ((fun v => if v.id != s.activeVersionId then v
        else { v with comments := v.comments.map (moveComment id x0 y0) }) ∘
       (fun v => if v.id != s.activeVersionId then v
        else { v with comments :=
          v.comments.map (moveComment id (x0 + dx) (y0 + dy)) })) v =
        v := by
    intro v hv
    rw [Function.comp_apply]
    by_cases hvid : (v.id != s.activeVersionId) = true
    · rw [if_pos hvid, if_pos hvid]
    · have hvf : (v.id != s.activeVersionId) = false := by
        simpa using hvid
      simp only [hvf, Bool.false_eq_true, if_false, List.map_map]
      have hcl : List.map ((moveComment id x0 y0) ∘
          (moveComment id (x0 + dx) (y0 + dy))) v.comments = v.comments := by
        rw [List.map_congr_left (g := fun c => c) ?_, List.map_id']
        intro c hc
        rw [Function.comp_apply]
        by_cases hcid : c.id = id
        · obtain ⟨hx, hy⟩ := hsc v hv c hc hcid
          exact moveComment_roundtrip id dx dy x0 y0 c hcid hx hy
        · rw [moveComment_ne _ _ _ _ hcid, moveComment_ne _ _ _ _ hcid]
      rw [hcl]
  rw [List.map_congr_left (g := fun v => v) hone, List.map_id']

/-- C5 (Round-trip translate): dragging a comment's pin by `(dx, dy)`
translates the attached Drawing by exactly the spec's §4.1 translation (Pen:
every point shifted; Box: rect `x, y` shifted, `w`, `h` and color unchanged)
and moves the anchor by the same delta; dragging by `(dx, dy)` and then by
`(-dx, -dy)` reproduces the comment — and the whole review state — exactly,
for both Pen and Box drawings. -/
theorem round_trip_translate :
    (∀ (id : String) (dx dy x0 y0 : ℚ) (c : Comment),
      c.id = id → c.x = some x0 → c.y = some y0 →
      moveComment id (x0 + dx) (y0 + dy) c =
        Comment.mk
          { c.data with x := some (x0 + dx), y := some (y0 + dy),
                        drawing := c.drawing.map
                          (Drawing.translate (x0 + dx - x0) (y0 + dy - y0)) }
          c.replies) ∧
    (∀ (id : String) (dx dy x0 y0 : ℚ) (c : Comment),
      c.id = id → c.x = some x0 → c.y = some y0 →
      moveComment id x0 y0 (moveComment id (x0 + dx) (y0 + dy) c) = c) ∧
    (∀ (id : String) (dx dy x0 y0 : ℚ) (s : ReviewState),
      (∀ v ∈ s.versions, ∀ c ∈ v.comments, c.id = id →
        c.x = some x0 ∧ c.y = some y0) →
      handleUpdateCommentPosition id x0 y0
        (handleUpdateCommentPosition id (x0 + dx) (y0 + dy) s) = s) := by
  refine ⟨?_, ?_, ?_⟩
  · intro id dx dy x0 y0 c hid hx hy
    exact moveComment_eq_translate id (x0 + dx) (y0 + dy) x0 y0 c hid hx hy
  · intro id dx dy x0 y0 c hid hx hy
    exact moveComment_roundtrip id dx dy x0 y0 c hid hx hy
  · intro id dx dy x0 y0 s hsc
    exact handleUpdateCommentPosition_roundtrip id dx dy x0 y0 s hsc

/-- Witness for `round_trip_translate`: dragging the concrete pen comment by
(5, 7) and back restores both the comment and the whole review state. -/
theorem round_trip_translate_witness :
    moveComment "cd" 10 10
      (moveComment "cd" (10 + 5) (10 + 7) penComment) = penComment ∧
    handleUpdateCommentPosition "cd" 10 10
      (handleUpdateCommentPosition "cd" (10 + 5) (10 + 7) penState) =
      penState := by
  refine ⟨round_trip_translate.2.1 "cd" 5 7 10 10 penComment rfl rfl rfl,
    round_trip_translate.2.2 "cd" 5 7 10 10 penState ?_⟩
  intro v hv c hc hcid
  have hv1 : v = { id := "v1", versionNumber := 1, url := "u",
                   createdAt := 0, comments := [penComment] } := by
    simpa [penState] using hv
  subst hv1
  have hc1 : c = penComment := by simpa using hc
  subst hc1
  exact ⟨rfl, rfl⟩

end CreativeFlow
